import Mathlib

/-!
Verification of the waveform cache/merge/reduce components against their
natural-language specification.

The cache assembler (`WaveformHandler.getWaveform` in
`obspy/branches/sandbox/PyQt_DB_Viewer/gui/waveform_handler.py`) is embedded
as a pure function on a listing of cache descriptor files, parametrised over
its external collaborators (the per-file deserialiser, the SeisHub gap
fetcher and the stream merge, all of which live outside the analysed file).
Timestamps are rationals; streams are abstracted to (start, end, npts)
triples, which is all the assembler inspects.
-/

set_option autoImplicit false

namespace WaveformCache

/-- A cache descriptor file: `channel[location]--start--end--cache`.  The
timestamps are parsed from the file name; `path` identifies the file on
disk (source: `waveform_handler.py`, lines 118-119). -/
structure CacheFile where
  startT : ℚ
  endT : ℚ
  path : ℕ
deriving DecidableEq, Repr

/-- The part of an obspy trace the assembler inspects: `stats.starttime`,
`stats.endtime` and `stats.npts`. -/
structure StreamS where
  startT : ℚ
  endT : ℚ
  npts : ℕ
deriving DecidableEq, Repr

/-- A storage side effect of `getWaveform`: `os.remove(file)` or the
`pickle.dump` of the new cache file (lines 160-168). -/
inductive StorageEvent where
  | del (path : ℕ)
  | write (startT endT : ℚ)
deriving DecidableEq, Repr

/-- How a `getWaveform` call ends.  `empty` is the silent `return None` of
`getPreview` when SeisHub has nothing; `noData` is the
`status_bar.setError` + `return` path (lines 146-150); `indexError` is an
uncaught `IndexError` from `times[0]` / `stream[0]` on an empty list;
`nameError` is the uncaught `NameError` from `Stream()` in `loadGaps`
(line 190: `Stream` is never imported in `waveform_handler.py`). -/
inductive GetOutcome where
  | ok (s : StreamS)
  | empty
  | noData
  | indexError
  | nameError
deriving DecidableEq, Repr

/-- Filter predicate of line 125: `time[0] <= endtime and time[1] >= starttime`. -/
def inWindow (st et : ℚ) (f : CacheFile) : Bool :=
  decide (f.startT ≤ et) && decide (st ≤ f.endT)

/-- Line 125: keep the descriptors whose range intersects the request. -/
def filterTimes (files : List CacheFile) (st et : ℚ) : List CacheFile :=
  files.filter (inWindow st et)

/-- The loop of lines 130-132: one widened frame per consecutive pair of
descriptors, `(times[i][1] - buffer, times[i+1][0] + buffer)`. -/
def interiorFrames (buf : ℚ) : List CacheFile → List (ℚ × ℚ)
  | a :: b :: rest => (a.endT - buf, b.startT + buf) :: interiorFrames buf (b :: rest)
  | _ => []

/-- `times[-1]` of a nonempty descriptor list. -/
def lastFile (t : CacheFile) : List CacheFile → CacheFile
  | [] => t
  | a :: rest => lastFile a rest

/-- Lines 124-135: the `missing_time_frames` list, for a nonempty filtered
descriptor list `t :: ts`.  The leading frame keeps the raw window start,
the trailing frame keeps the raw window end; every edge that abuts a
descriptor is moved by `buf` past that descriptor's boundary. -/
def missingTimeFrames (t : CacheFile) (ts : List CacheFile) (st et buf : ℚ) : List (ℚ × ℚ) :=
  (if st < t.startT then [(st, t.startT + buf)] else [])
    ++ interiorFrames buf (t :: ts)
    ++ (if et > (lastFile t ts).endT then [((lastFile t ts).endT - buf, et)] else [])

/-- Lines 156-169: `stream.merge(...)`, then `stream[0]` (IndexError on an
empty stream), then — when `npts > 200` — FIRST `os.remove` of every loaded
descriptor file, THEN the `pickle.dump` of the new cache file named after
the merged bounds.  Returns (outcome, gap frames requested, storage events,
resulting directory listing). -/
def finishMerge (files times : List CacheFile) (s : List StreamS)
    (mergeF : List StreamS → List StreamS) (newPath : ℕ) (missing : List (ℚ × ℚ)) :
    GetOutcome × List (ℚ × ℚ) × List StorageEvent × List CacheFile :=
  match mergeF s with
  | [] => (GetOutcome.indexError, missing, [], files)
  | m :: _ =>
    if 200 < m.npts then
      (GetOutcome.ok m, missing,
        times.map (fun f => StorageEvent.del f.path) ++ [StorageEvent.write m.startT m.endT],
        files.filter (fun f => decide (f ∉ times)) ++ [⟨m.startT, m.endT, newPath⟩])
    else
      (GetOutcome.ok m, missing, [], files)

/-- `WaveformHandler.getWaveform` (lines 91-169) on the directory listing
`files` for the requested channel, window `[st, et]` and buffer `buf`.
Collaborators: `loadF` is `pickle.load` per cached file, `fetchF` is
`seishub.getPreview` per gap frame, `mergeF` is `Stream.merge`, `fw` is the
un-windowed `getPreview` fetch used when no cache file exists, `newPath`
names the file a persist would create.  Result components: outcome, the gap
frames handed to `loadGaps` (empty when `loadGaps` is never invoked),
storage events in program order, and the directory listing afterwards. -/
def getWaveformM (files : List CacheFile) (st et buf : ℚ)
    (loadF : CacheFile → List StreamS) (fetchF : ℚ × ℚ → List StreamS)
    (mergeF : List StreamS → List StreamS) (fw : List StreamS) (newPath : ℕ) :
    GetOutcome × List (ℚ × ℚ) × List StorageEvent × List CacheFile :=
  match files with
  | [] =>
    -- lines 109-115 and 208-229: no cached file, delegate to getPreview
    match fw with
    | [] => (GetOutcome.empty, [], [], [])
    | tr :: _ =>
      if 200 < tr.npts then
        (GetOutcome.ok tr, [], [StorageEvent.write tr.startT tr.endT],
          [] ++ [⟨tr.startT, tr.endT, newPath⟩])
      else
        (GetOutcome.ok tr, [], [], [])
  | f :: fs =>
    match filterTimes (f :: fs) st et with
    | [] =>
      -- line 127: `times[0]` on the empty filtered list raises IndexError
      (GetOutcome.indexError, [], [], f :: fs)
    | t :: ts =>
      match missingTimeFrames t ts st et buf with
      | [] =>
        finishMerge (f :: fs) (t :: ts) (((t :: ts).map loadF).flatten) mergeF newPath []
      | g :: gs =>
        -- lines 171-191 (loadGaps): fetch each frame, keep the nonempty
        -- results; with no nonempty result the line `stream = Stream()`
        -- raises NameError, since Stream is never imported
        match (((g :: gs).map fetchF).filter (fun s => !s.isEmpty)) with
        | [] => (GetOutcome.nameError, g :: gs, [], f :: fs)
        | _ :: _ =>
          match (((t :: ts).map loadF).flatten) ++ (((g :: gs).map fetchF).filter (fun s => !s.isEmpty)).flatten with
          | [] => (GetOutcome.noData, g :: gs, [], f :: fs)
          | s0 :: srest =>
            finishMerge (f :: fs) (t :: ts) (s0 :: srest) mergeF newPath (g :: gs)

/-- Is this event the write of the new cache file? -/
def isWrite : StorageEvent → Bool
  | StorageEvent.write _ _ => true
  | StorageEvent.del _ => false

/-- `true` iff some delete occurs strictly before some write in the event
trace. -/
def delBeforeWrite : List StorageEvent → Bool
  | [] => false
  | StorageEvent.del _ :: rest => rest.any isWrite || delBeforeWrite rest
  | StorageEvent.write _ _ :: rest => delBeforeWrite rest

end WaveformCache

namespace WaveformCache

/-- Membership in the interior frame list comes from a consecutive pair of
descriptors. -/
theorem mem_interiorFrames {buf : ℚ} {l : List CacheFile} {g : ℚ × ℚ}
    (hg : g ∈ interiorFrames buf l) :
    ∃ i a b, l[i]? = some a ∧ l[i + 1]? = some b ∧ g = (a.endT - buf, b.startT + buf) := by
  induction l with
  | nil => simp [interiorFrames] at hg
  | cons a rest ih =>
    cases rest with
    | nil => simp [interiorFrames] at hg
    | cons b rest2 =>
      rw [interiorFrames, List.mem_cons] at hg
      rcases hg with hg | hg
      · exact ⟨0, a, b, rfl, by simp, hg⟩
      · obtain ⟨i, x, y, h1, h2, h3⟩ := ih hg
        exact ⟨i + 1, x, y, by simpa using h1, by simpa using h2, h3⟩

/-- C3: every computed missing sub-range is either the leading gap (raw
window start, descriptor start widened by the buffer), an interior gap
(both edges widened past the abutting descriptors), or the trailing gap
(descriptor end widened by the buffer, raw window end).  Edges that abut a
cached descriptor are moved by `buf`; the edges that coincide with the
window's own start or end boundary are kept exactly. -/
theorem gap_widening_policy (t : CacheFile) (ts : List CacheFile) (st et buf : ℚ)
    (g : ℚ × ℚ) (hg : g ∈ missingTimeFrames t ts st et buf) :
    (st < t.startT ∧ g = (st, t.startT + buf)) ∨
    (∃ i a b, (t :: ts)[i]? = some a ∧ (t :: ts)[i + 1]? = some b ∧
        g = (a.endT - buf, b.startT + buf)) ∨
    ((lastFile t ts).endT < et ∧ g = ((lastFile t ts).endT - buf, et)) := by
  unfold missingTimeFrames at hg
  rw [List.mem_append, List.mem_append] at hg
  rcases hg with (hg | hg) | hg
  · left
    by_cases h : st < t.startT
    · rw [if_pos h] at hg
      simp only [List.mem_singleton] at hg
      exact ⟨h, hg⟩
    · rw [if_neg h] at hg
      simp at hg
  · exact Or.inr (Or.inl (mem_interiorFrames hg))
  · right; right
    by_cases h : (lastFile t ts).endT < et
    · rw [if_pos h] at hg
      simp only [List.mem_singleton] at hg
      exact ⟨h, hg⟩
    · rw [if_neg h] at hg
      simp at hg

/-- Witness for C3: two cached descriptors [2,4] and [6,8] inside the
window [0,10] with buffer 1 produce the interior gap (3,7), and the theorem
classifies it. -/
theorem gap_widening_policy_witness :
    ((3 : ℚ), (7 : ℚ)) ∈ missingTimeFrames ⟨2, 4, 0⟩ [⟨6, 8, 1⟩] 0 10 1 ∧
    ((0 < (2 : ℚ) ∧ ((3 : ℚ), (7 : ℚ)) = ((0 : ℚ), (2 : ℚ) + 1)) ∨
     (∃ i a b, ([⟨2, 4, 0⟩, ⟨6, 8, 1⟩] : List CacheFile)[i]? = some a ∧
        ([⟨2, 4, 0⟩, ⟨6, 8, 1⟩] : List CacheFile)[i + 1]? = some b ∧
        ((3 : ℚ), (7 : ℚ)) = (a.endT - 1, b.startT + 1)) ∨
     ((lastFile ⟨2, 4, 0⟩ [⟨6, 8, 1⟩]).endT < 10 ∧
        ((3 : ℚ), (7 : ℚ)) = ((lastFile ⟨2, 4, 0⟩ [⟨6, 8, 1⟩]).endT - 1, 10))) :=
  ⟨by norm_num [missingTimeFrames, interiorFrames, lastFile],
    gap_widening_policy ⟨2, 4, 0⟩ [⟨6, 8, 1⟩] 0 10 1 (3, 7)
      (by norm_num [missingTimeFrames, interiorFrames, lastFile])⟩

/-- C10: with a nonempty directory listing for the channel but no
descriptor intersecting the window, `getWaveform` indexes the empty
filtered list and raises IndexError, with no gap frame ever handed to the
fetch collaborator. -/
theorem stale_cache_index_error (files : List CacheFile) (st et buf : ℚ)
    (loadF : CacheFile → List StreamS) (fetchF : ℚ × ℚ → List StreamS)
    (mergeF : List StreamS → List StreamS) (fw : List StreamS) (newPath : ℕ)
    (hne : files ≠ []) (hfil : filterTimes files st et = []) :
    (getWaveformM files st et buf loadF fetchF mergeF fw newPath).1 = GetOutcome.indexError ∧
    (getWaveformM files st et buf loadF fetchF mergeF fw newPath).2.1 = [] := by
  cases files with
  | nil => exact absurd rfl hne
  | cons f fs =>
    rw [getWaveformM, hfil]
    exact ⟨rfl, rfl⟩

/-- Witness for C10: one cached descriptor [0,1] with window [5,6]. -/
theorem stale_cache_index_error_witness :
    ([⟨0, 1, 0⟩] : List CacheFile) ≠ [] ∧
    filterTimes [⟨0, 1, 0⟩] 5 6 = [] ∧
    (getWaveformM [⟨0, 1, 0⟩] 5 6 1 (fun _ => []) (fun _ => []) id [] 9).1 =
      GetOutcome.indexError :=
  ⟨by decide, by decide,
    (stale_cache_index_error [⟨0, 1, 0⟩] 5 6 1 (fun _ => []) (fun _ => []) id [] 9
      (by decide) (by decide)).1⟩

/-- The second result component of `finishMerge` is always the gap frame
list it was given. -/
theorem finishMerge_frames (files times : List CacheFile) (s : List StreamS)
    (mergeF : List StreamS → List StreamS) (newPath : ℕ) (missing : List (ℚ × ℚ)) :
    (finishMerge files times s mergeF newPath missing).2.1 = missing := by
  unfold finishMerge
  cases mergeF s with
  | nil => rfl
  | cons m rest =>
    dsimp only
    by_cases h : 200 < m.npts
    · rw [if_pos h]
    · rw [if_neg h]

/-- When `finishMerge` returns a stream and the persist threshold is
exceeded, the storage events are the deletes of every loaded descriptor
followed by the write of the new file, and the directory afterwards holds
the surviving (untouched) files plus the new descriptor. -/
theorem finishMerge_ok_persist (files times : List CacheFile) (s : List StreamS)
    (mergeF : List StreamS → List StreamS) (newPath : ℕ) (missing : List (ℚ × ℚ))
    (m : StreamS)
    (hok : (finishMerge files times s mergeF newPath missing).1 = GetOutcome.ok m)
    (hp : 200 < m.npts) :
    (finishMerge files times s mergeF newPath missing).2.2.1 =
      times.map (fun f => StorageEvent.del f.path) ++
        [StorageEvent.write m.startT m.endT] ∧
    (finishMerge files times s mergeF newPath missing).2.2.2 =
      files.filter (fun f => decide (f ∉ times)) ++ [⟨m.startT, m.endT, newPath⟩] := by
  unfold finishMerge at hok ⊢
  cases hms : mergeF s with
  | nil =>
    rw [hms] at hok
    exact absurd hok (by simp)
  | cons m0 rest =>
    rw [hms] at hok
    dsimp only at hok ⊢
    by_cases h : 200 < m0.npts
    · rw [if_pos h] at hok ⊢
      have hm : m0 = m := by simpa using hok
      subst hm
      exact ⟨rfl, rfl⟩
    · rw [if_neg h] at hok
      have hm : m0 = m := by simpa using hok
      subst hm
      exact absurd hp h

/-- Any `getWaveform` call that returns a stream above the persist
threshold deletes exactly the loaded (window-intersecting) descriptors and
then writes one new descriptor spanning the returned stream's bounds; the
resulting directory holds the untouched files plus that new descriptor. -/
theorem getWaveformM_ok_persist (files : List CacheFile) (st et buf : ℚ)
    (loadF : CacheFile → List StreamS) (fetchF : ℚ × ℚ → List StreamS)
    (mergeF : List StreamS → List StreamS) (fw : List StreamS) (newPath : ℕ)
    (m : StreamS)
    (hok : (getWaveformM files st et buf loadF fetchF mergeF fw newPath).1 = GetOutcome.ok m)
    (hp : 200 < m.npts) :
    (getWaveformM files st et buf loadF fetchF mergeF fw newPath).2.2.1 =
      (filterTimes files st et).map (fun f => StorageEvent.del f.path) ++
        [StorageEvent.write m.startT m.endT] ∧
    (getWaveformM files st et buf loadF fetchF mergeF fw newPath).2.2.2 =
      files.filter (fun f => decide (f ∉ filterTimes files st et)) ++
        [⟨m.startT, m.endT, newPath⟩] := by
  rw [getWaveformM.eq_def] at hok ⊢
  cases files with
  | nil =>
    dsimp only at hok ⊢
    cases fw with
    | nil => exact absurd hok (by simp)
    | cons tr rest =>
      dsimp only at hok ⊢
      by_cases h : 200 < tr.npts
      · rw [if_pos h] at hok ⊢
        have hm : tr = m := by simpa using hok
        subst hm
        exact ⟨rfl, by simp [filterTimes]⟩
      · rw [if_neg h] at hok
        have hm : tr = m := by simpa using hok
        subst hm
        exact absurd hp h
  | cons f fs =>
    dsimp only at hok ⊢
    cases hfil : filterTimes (f :: fs) st et with
    | nil =>
      rw [hfil] at hok
      exact absurd hok (by simp)
    | cons t ts =>
      rw [hfil] at hok
      dsimp only at hok ⊢
      cases hmiss : missingTimeFrames t ts st et buf with
      | nil =>
        rw [hmiss] at hok
        dsimp only at hok ⊢
        exact finishMerge_ok_persist _ _ _ _ _ _ m hok hp
      | cons g gs =>
        rw [hmiss] at hok
        dsimp only at hok ⊢
        cases hfe : ((g :: gs).map fetchF).filter (fun s => !s.isEmpty) with
        | nil =>
          rw [hfe] at hok
          exact absurd hok (by simp)
        | cons w ws =>
          rw [hfe] at hok
          dsimp only at hok ⊢
          cases hs : ((t :: ts).map loadF).flatten ++ (w :: ws).flatten with
          | nil =>
            rw [hs] at hok
            exact absurd hok (by simp)
          | cons s0 srest =>
            rw [hs] at hok
            dsimp only at hok ⊢
            exact finishMerge_ok_persist _ _ _ _ _ _ m hok hp

/-- Compacting leaves no other descriptor that intersects the same window:
filtering the post-persist directory with the same window keeps exactly the
new descriptor. -/
theorem filterTimes_compacted (files : List CacheFile) (st et : ℚ) (d : CacheFile)
    (hd : inWindow st et d = true) :
    filterTimes (files.filter (fun f => decide (f ∉ filterTimes files st et)) ++ [d]) st et
      = [d] := by
  unfold filterTimes at *
  rw [List.filter_append]
  have h1 : (files.filter (fun f => decide (f ∉ files.filter (inWindow st et)))).filter
      (inWindow st et) = [] := by
    rw [List.filter_eq_nil_iff]
    intro a ha hcon
    rw [List.mem_filter] at ha
    have hmem : a ∈ files.filter (inWindow st et) := List.mem_filter.mpr ⟨ha.1, hcon⟩
    have hno : a ∉ files.filter (inWindow st et) := of_decide_eq_true ha.2
    exact hno hmem
  rw [h1]
  simp [hd]

/-- A single descriptor covering the whole window leaves no missing
frames. -/
theorem missing_single_cover (d : CacheFile) (st et buf : ℚ)
    (h1 : d.startT ≤ st) (h2 : et ≤ d.endT) :
    missingTimeFrames d [] st et buf = [] := by
  unfold missingTimeFrames interiorFrames lastFile
  rw [if_neg (not_lt.mpr h1), if_neg (not_lt.mpr h2)]
  rfl

/-- A `getWaveform` call on a directory whose only window-intersecting
descriptor covers the whole window computes no gap frames, so `loadGaps`
(and with it the fetch collaborator) is never invoked. -/
theorem getWaveformM_covered_no_frames (files : List CacheFile) (st et buf : ℚ)
    (loadF : CacheFile → List StreamS) (fetchF : ℚ × ℚ → List StreamS)
    (mergeF : List StreamS → List StreamS) (fw : List StreamS) (newPath : ℕ)
    (d : CacheFile)
    (hne : files ≠ []) (hfil : filterTimes files st et = [d])
    (h1 : d.startT ≤ st) (h2 : et ≤ d.endT) :
    (getWaveformM files st et buf loadF fetchF mergeF fw newPath).2.1 = [] := by
  cases files with
  | nil => exact absurd rfl hne
  | cons f fs =>
    rw [getWaveformM.eq_def]
    dsimp only
    rw [hfil]
    dsimp only
    rw [missing_single_cover d st et buf h1 h2]
    dsimp only
    rw [finishMerge_frames]

/-- C1 (counterexample): a concrete persisting `getWaveform` run whose
storage trace deletes the old descriptor's backing file strictly before
the new consolidated descriptor is written — so it is false that the new
descriptor is durably written before any old descriptor is deleted. -/
theorem persist_write_before_delete_counterexample :
    (getWaveformM [⟨0, 10, 0⟩] 0 20 1 (fun _ => [⟨0, 10, 50⟩])
        (fun _ => [⟨9, 20, 250⟩]) (fun _ => [⟨0, 20, 300⟩]) [] 1).2.2.1 =
      [StorageEvent.del 0, StorageEvent.write 0 20] ∧
    delBeforeWrite
      ((getWaveformM [⟨0, 10, 0⟩] 0 20 1 (fun _ => [⟨0, 10, 50⟩])
        (fun _ => [⟨9, 20, 250⟩]) (fun _ => [⟨0, 20, 300⟩]) [] 1).2.2.1) = true :=
  ⟨by decide, by decide⟩

/-- C1 (amended): whenever `getWaveform` persists (returns a stream above
the 200-sample threshold), its storage trace is exactly the deletes of all
loaded descriptors followed, last, by the single write of the new
consolidated descriptor — deletion happens strictly before the durable
write, with the merged result held only in memory in between. -/
theorem persist_deletes_then_writes (files : List CacheFile) (st et buf : ℚ)
    (loadF : CacheFile → List StreamS) (fetchF : ℚ × ℚ → List StreamS)
    (mergeF : List StreamS → List StreamS) (fw : List StreamS) (newPath : ℕ)
    (m : StreamS)
    (hok : (getWaveformM files st et buf loadF fetchF mergeF fw newPath).1 = GetOutcome.ok m)
    (hp : 200 < m.npts) :
    (getWaveformM files st et buf loadF fetchF mergeF fw newPath).2.2.1 =
      (filterTimes files st et).map (fun f => StorageEvent.del f.path) ++
        [StorageEvent.write m.startT m.endT] :=
  (getWaveformM_ok_persist files st et buf loadF fetchF mergeF fw newPath m hok hp).1

/-- Witness for the amended C1: a concrete run where one cached descriptor
[0,10] is merged with a fetched gap into a 300-sample stream. -/
theorem persist_deletes_then_writes_witness :
    (getWaveformM [⟨0, 10, 0⟩] 0 20 1 (fun _ => [⟨0, 10, 50⟩])
        (fun _ => [⟨9, 20, 250⟩]) (fun _ => [⟨0, 20, 300⟩]) [] 1).1 =
      GetOutcome.ok ⟨0, 20, 300⟩ ∧
    200 < (300 : ℕ) ∧
    (getWaveformM [⟨0, 10, 0⟩] 0 20 1 (fun _ => [⟨0, 10, 50⟩])
        (fun _ => [⟨9, 20, 250⟩]) (fun _ => [⟨0, 20, 300⟩]) [] 1).2.2.1 =
      (filterTimes [⟨0, 10, 0⟩] 0 20).map (fun f => StorageEvent.del f.path) ++
        [StorageEvent.write 0 20] :=
  ⟨by decide, by decide,
    persist_deletes_then_writes [⟨0, 10, 0⟩] 0 20 1 (fun _ => [⟨0, 10, 50⟩])
      (fun _ => [⟨9, 20, 250⟩]) (fun _ => [⟨0, 20, 300⟩]) [] 1 ⟨0, 20, 300⟩
      (by decide) (by decide)⟩

/-- C2: if a `getWaveform` call returns a stream that fully covers the
requested window and that result is persisted (sample count above the
threshold), then a second identical call on the resulting cache state
computes an empty gap list, so `loadGaps` — and with it the fetch
collaborator — is never invoked on the second call. -/
theorem repeat_get_zero_fetch_calls (files : List CacheFile) (st et buf : ℚ)
    (loadF loadF2 : CacheFile → List StreamS) (fetchF fetchF2 : ℚ × ℚ → List StreamS)
    (mergeF mergeF2 : List StreamS → List StreamS) (fw fw2 : List StreamS)
    (newPath newPath2 : ℕ) (m : StreamS)
    (hwin : st ≤ et)
    (hok : (getWaveformM files st et buf loadF fetchF mergeF fw newPath).1 = GetOutcome.ok m)
    (hcov1 : m.startT ≤ st) (hcov2 : et ≤ m.endT)
    (hp : 200 < m.npts) :
    (getWaveformM (getWaveformM files st et buf loadF fetchF mergeF fw newPath).2.2.2
        st et buf loadF2 fetchF2 mergeF2 fw2 newPath2).2.1 = [] := by
  obtain ⟨-, hstate⟩ :=
    getWaveformM_ok_persist files st et buf loadF fetchF mergeF fw newPath m hok hp
  rw [hstate]
  have hd : inWindow st et ⟨m.startT, m.endT, newPath⟩ = true := by
    unfold inWindow
    simp only [Bool.and_eq_true, decide_eq_true_eq]
    exact ⟨le_trans hcov1 hwin, le_trans hwin hcov2⟩
  exact getWaveformM_covered_no_frames _ st et buf loadF2 fetchF2 mergeF2 fw2 newPath2
    ⟨m.startT, m.endT, newPath⟩ (by simp)
    (filterTimes_compacted files st et _ hd) hcov1 hcov2

/-- Witness for C2: the first call persists a covering 300-sample stream;
the second call on the updated directory computes zero gap frames. -/
theorem repeat_get_zero_fetch_calls_witness :
    (0 : ℚ) ≤ 20 ∧
    (getWaveformM [⟨0, 10, 0⟩] 0 20 1 (fun _ => [⟨0, 10, 50⟩])
        (fun _ => [⟨9, 20, 250⟩]) (fun _ => [⟨0, 20, 300⟩]) [] 1).1 =
      GetOutcome.ok ⟨0, 20, 300⟩ ∧
    (getWaveformM
        ((getWaveformM [⟨0, 10, 0⟩] 0 20 1 (fun _ => [⟨0, 10, 50⟩])
          (fun _ => [⟨9, 20, 250⟩]) (fun _ => [⟨0, 20, 300⟩]) [] 1).2.2.2)
        0 20 1 (fun _ => [⟨0, 20, 300⟩]) (fun _ => [])
        (fun _ => [⟨0, 20, 300⟩]) [] 2).2.1 = [] :=
  ⟨by decide, by decide,
    repeat_get_zero_fetch_calls [⟨0, 10, 0⟩] 0 20 1
      (fun _ => [⟨0, 10, 50⟩]) (fun _ => [⟨0, 20, 300⟩])
      (fun _ => [⟨9, 20, 250⟩]) (fun _ => [])
      (fun _ => [⟨0, 20, 300⟩]) (fun _ => [⟨0, 20, 300⟩]) [] [] 1 2 ⟨0, 20, 300⟩
      (by decide) (by decide) (by decide) (by decide) (by decide)⟩

/-- C4: at a window only partially covered by the cache, with an empty
stored stream and a fetch collaborator that returns nothing, the assembler
finds no data from either cache or fetch — and instead of signalling the
NoData error it raises the uncaught NameError from `Stream()` in
`loadGaps` (`Stream` is never imported in `waveform_handler.py`). -/
theorem no_data_raises_name_error :
    (getWaveformM [⟨0, 10, 0⟩] 0 20 1 (fun _ => []) (fun _ => [])
        (fun s => s) [] 5).1 = GetOutcome.nameError ∧
    (getWaveformM [⟨0, 10, 0⟩] 0 20 1 (fun _ => []) (fun _ => [])
        (fun s => s) [] 5).1 ≠ GetOutcome.noData :=
  ⟨by decide, by decide⟩

end WaveformCache

namespace WaveformReduce

/-!
The visualization reducer `WaveformHandler.processStream` (lines 51-89).
The single trimmed trace's data is a list of optional rationals: `none` is
a masked (invalid) sample, `some v` a plain value.  numpy's masked
semantics are mirrored: a reduction over only masked entries is masked,
comparisons against a masked scalar are falsy.
-/

/-- Binary maximum on rationals, written out so that concrete inputs
evaluate inside the kernel. -/
def qmax (a b : ℚ) : ℚ := if a ≤ b then b else a

/-- Binary minimum on rationals, written out so that concrete inputs
evaluate inside the kernel. -/
def qmin (a b : ℚ) : ℚ := if b ≤ a then b else a

/-- `ptp.max()` on a masked array: the maximum over the unmasked entries,
masked (`none`) when every entry is masked. -/
def maxSome (l : List (Option ℚ)) : Option ℚ :=
  match l.filterMap id with
  | [] => none
  | v :: vs => some (vs.foldl qmax v)

/-- `ptp(axis=1)` of one bucket row: max minus min over the unmasked
entries, masked when the whole row is masked. -/
def bucketPtp (b : List (Option ℚ)) : Option ℚ :=
  match b.filterMap id with
  | [] => none
  | v :: vs => some (vs.foldl qmax v - vs.foldl qmin v)

/-- Row `i` of `data[:pixel*per].reshape(pixel, per)`: the `per` samples
starting at index `i*per`. -/
def bucketAt (data : List (Option ℚ)) (per i : ℕ) : List (Option ℚ) :=
  (data.drop (i * per)).take per

/-- Line 67: the per-bucket peak-to-peak list, one entry per pixel. -/
def ptpList (data : List (Option ℚ)) (pixel per : ℕ) : List (Option ℚ) :=
  (List.range pixel).map (fun i => bucketPtp (bucketAt data per i))

/-- Lines 70-73: fold the remainder samples into the last bucket by
`if ptp[-1] < last_pixel.ptp(): ptp[-1] = last_pixel.ptp()`.  A masked
comparand makes the numpy comparison falsy, so the update only happens
when both values are unmasked. -/
def adjustLast (ptp : List (Option ℚ)) (lp : Option ℚ) : List (Option ℚ) :=
  match ptp.getLast?, lp with
  | some (some a), some b => if a < b then ptp.dropLast ++ [some b] else ptp
  | _, _ => ptp

/-- Lines 65-73: the bucket peak-to-peak list after remainder folding,
with `per = length // pixel`. -/
def ptpStage (data : List (Option ℚ)) (pixel : ℕ) : List (Option ℚ) :=
  if (data.drop (pixel * (data.length / pixel))).isEmpty then
    ptpList data pixel (data.length / pixel)
  else
    adjustLast (ptpList data pixel (data.length / pixel))
      (bucketPtp (data.drop (pixel * (data.length / pixel))))

/-- Python truthiness of `self.env.log_scale`: set and nonzero. -/
def truthy : Option ℚ → Bool
  | none => false
  | some b => decide (b ≠ 0)

/-- How `processStream` can fail. -/
inductive ProcErr where
  | attributeError
deriving DecidableEq, Repr

/-- `WaveformHandler.processStream` (lines 51-89) after the trim, on the
single trace's sample list.  When `log_scale` is truthy, line 78 evaluates
`np.log(self.ptp)`: `ptp` is only a local variable and `WaveformHandler`
has no attribute `ptp`, so the call raises AttributeError.  Otherwise the
values are rescaled by `100/ptp.max()`, masked entries are filled with 0
(lines 82-84), and every value strictly between 0 and 0.5 is raised to 0.5
(line 87).  When every bucket is masked, `ptp.max()` is masked, the scaled
array stays fully masked and filling yields all zeros. -/
def processStreamM (data : List (Option ℚ)) (pixel : ℕ) (logScale : Option ℚ) :
    Except ProcErr (List ℚ) :=
  if truthy logScale then
    Except.error ProcErr.attributeError
  else
    match maxSome (ptpStage data pixel) with
    | none => Except.ok ((ptpStage data pixel).map (fun _ => 0))
    | some mx =>
      Except.ok ((((ptpStage data pixel).map (Option.map (fun v => v * 100 / mx))).map
          (fun o => o.getD 0)).map
        (fun v => if 0 < v ∧ v < 1/2 then 1/2 else v))

end WaveformReduce

namespace WaveformReduce

/-- C7: whenever a logarithmic base is configured (truthy `log_scale`),
`processStream` raises AttributeError at `np.log(self.ptp)` instead of
applying the log transform and returning normally: the handler object has
no attribute `ptp`. -/
theorem log_scale_attribute_error (data : List (Option ℚ)) (pixel : ℕ) (b : ℚ)
    (hb : b ≠ 0) :
    processStreamM data pixel (some b) = Except.error ProcErr.attributeError := by
  unfold processStreamM truthy
  rw [if_pos (decide_eq_true hb)]

/-- Witness for C7: base 10 on a concrete three-sample stream. -/
theorem log_scale_attribute_error_witness :
    (10 : ℚ) ≠ 0 ∧
    processStreamM [some 0, some 1, some 2] 1 (some 10) =
      Except.error ProcErr.attributeError :=
  ⟨by norm_num,
    log_scale_attribute_error [some 0, some 1, some 2] 1 10 (by norm_num)⟩

/-- A bucket made only of masked samples has a masked peak-to-peak. -/
theorem bucketPtp_all_none (b : List (Option ℚ)) (hb : ∀ o ∈ b, o = none) :
    bucketPtp b = none := by
  unfold bucketPtp
  have h : b.filterMap id = [] := by
    rw [List.filterMap_eq_nil_iff]
    intro a ha
    exact hb a ha
  rw [h]

/-- The remainder folding never turns a masked bucket value into an
unmasked one: a masked `ptp[-1]` makes the numpy comparison falsy, and
other positions are untouched. -/
theorem adjustLast_preserves_none (l : List (Option ℚ)) (lp : Option ℚ) (i : ℕ)
    (hi : l[i]? = some none) :
    (adjustLast l lp)[i]? = some none := by
  unfold adjustLast
  cases hL : l.getLast? with
  | none => exact hi
  | some o =>
    cases o with
    | none => cases lp <;> exact hi
    | some a =>
      cases lp with
      | none => exact hi
      | some b =>
        dsimp only
        by_cases hab : a < b
        · rw [if_pos hab]
          have hlen : i < l.length := by
            rcases List.getElem?_eq_some_iff.mp hi with ⟨h, -⟩
            exact h
          have hlast : l[l.length - 1]? = some (some a) := by
            rw [← List.getLast?_eq_getElem?]
            exact hL
          have hne : i ≠ l.length - 1 := by
            intro hcon
            rw [hcon, hlast] at hi
            simp at hi
          have hlt : i < l.dropLast.length := by
            rw [List.length_dropLast]
            omega
          rw [List.getElem?_append_left hlt, List.dropLast_eq_take,
            List.getElem?_take, if_pos (by rw [List.length_dropLast] at hlt; exact hlt)]
          exact hi
        · rw [if_neg hab]
          exact hi

/-- An all-masked bucket stays masked through the whole ptp stage. -/
theorem ptpStage_masked_bucket (data : List (Option ℚ)) (pixel i : ℕ) (hi : i < pixel)
    (hmask : ∀ o ∈ bucketAt data (data.length / pixel) i, o = none) :
    (ptpStage data pixel)[i]? = some none := by
  have h0 : (ptpList data pixel (data.length / pixel))[i]? = some none := by
    unfold ptpList
    rw [List.getElem?_map, List.getElem?_range hi, Option.map_some',
      bucketPtp_all_none _ hmask]
  unfold ptpStage
  by_cases hrem : (data.drop (pixel * (data.length / pixel))).isEmpty = true
  · rw [if_pos hrem]
    exact h0
  · rw [if_neg hrem]
    exact adjustLast_preserves_none _ _ _ h0

/-- C8: in the reducer's output (no log base; positive unmasked maximum),
a bucket whose rescaled value lies strictly between 0 and 0.5 is raised to
exactly 0.5; a bucket whose rescaled value is exactly 0 is left at 0; and
a bucket made entirely of masked input samples produces 0, never clamped
to 0.5. -/
theorem reducer_clamp_policy (data : List (Option ℚ)) (pixel : ℕ) (mx : ℚ)
    (out : List ℚ)
    (hmx : maxSome (ptpStage data pixel) = some mx) (hpos : 0 < mx)
    (hout : processStreamM data pixel none = Except.ok out) :
    (∀ (i : ℕ) (v : ℚ), (ptpStage data pixel)[i]? = some (some v) →
       ((0 < v * 100 / mx ∧ v * 100 / mx < 1/2) → out[i]? = some (1/2)) ∧
       (v * 100 / mx = 0 → out[i]? = some 0)) ∧
    (∀ i : ℕ, i < pixel → (∀ o ∈ bucketAt data (data.length / pixel) i, o = none) →
       out[i]? = some 0) := by
  have hout2 : out = (((ptpStage data pixel).map (Option.map (fun v => v * 100 / mx))).map
      (fun o => o.getD 0)).map (fun v => if 0 < v ∧ v < 1/2 then 1/2 else v) := by
    unfold processStreamM at hout
    rw [if_neg (by simp [truthy]), hmx] at hout
    simpa using hout.symm
  subst hout2
  constructor
  · intro i v hv
    simp only [List.getElem?_map, hv, Option.map_some', Option.getD_some]
    constructor
    · intro hclamp
      rw [if_pos hclamp]
    · intro hzero
      rw [if_neg (by rw [hzero]; simp), hzero]
  · intro i hi hmask
    simp only [List.getElem?_map, ptpStage_masked_bucket data pixel i hi hmask,
      Option.map_some', Option.map_none', Option.getD_none]
    rw [if_neg (by simp)]

/-- Witness stream for C8: four buckets of two samples — a true-zero
bucket, a fully masked bucket, a faint bucket (ptp 1/1000) and a loud
bucket (ptp 1). -/
def w8 : List (Option ℚ) :=
  [some 0, some 0, none, none, some 0, some (1/1000), some 0, some 1]

/-- Witness for C8: the faint bucket rescales to 1/10 and is clamped to
1/2, the zero bucket stays 0, the masked bucket yields 0. -/
theorem reducer_clamp_policy_witness :
    maxSome (ptpStage w8 4) = some 1 ∧
    processStreamM w8 4 none = Except.ok [0, 0, 1/2, 100] ∧
    ([(0 : ℚ), 0, 1/2, 100])[2]? = some (1/2) ∧
    ([(0 : ℚ), 0, 1/2, 100])[0]? = some 0 ∧
    ([(0 : ℚ), 0, 1/2, 100])[1]? = some 0 := by
  have hstage : ptpStage w8 4 = [some 0, none, some (1/1000), some 1] := by
    norm_num [ptpStage, ptpList, bucketAt, bucketPtp, adjustLast, qmax, qmin, w8,
      List.range_succ, List.filterMap_cons, List.filterMap_nil, id_eq]
  have hmx : maxSome (ptpStage w8 4) = some 1 := by
    rw [hstage]
    norm_num [maxSome, qmax, List.filterMap_cons, List.filterMap_nil, id_eq]
  have hout : processStreamM w8 4 none = Except.ok [0, 0, 1/2, 100] := by
    unfold processStreamM
    rw [if_neg (by simp [truthy]), hmx, hstage]
    norm_num
  refine ⟨hmx, hout, ?_, ?_, ?_⟩
  · exact ((reducer_clamp_policy w8 4 1 [0, 0, 1/2, 100] hmx (by norm_num)
      hout).1 2 (1/1000) (by rw [hstage]; rfl)).1 (by norm_num)
  · exact ((reducer_clamp_policy w8 4 1 [0, 0, 1/2, 100] hmx (by norm_num)
      hout).1 0 0 (by rw [hstage]; rfl)).2 (by norm_num)
  · exact (reducer_clamp_policy w8 4 1 [0, 0, 1/2, 100] hmx (by norm_num)
      hout).2 1 (by norm_num) (by decide)

end WaveformReduce

namespace SeriesCore

/-!
The SampleSeries value type with its trim and merge ("add") operations.
The implementation (`obspy.core.trace.Trace.__add__` / `Trace.trim`) is not
part of the analysed sources — only its test suite
(`src/trunk/obspy.core/obspy/core/tests/test_trace.py`) is — so these
operations are modelled from the specification (spec sections 4.1 and 4.2)
and validated against the expectations of `test_addOverlapsDefaultMethod`,
`test_addWithDifferentSamplingRates`, `test_addWithDifferentDatatypesOrID`
and `test_trimFloatingPoint`.
-/

/-- Modelled from the spec (section 3): a sample series with its four-part
identity, absolute start time, positive sampling rate, dtype tag and an
ordered sample sequence with per-sample validity (`none` = masked). -/
structure SampleSeries where
  network : String
  station : String
  location : String
  channel : String
  startT : ℚ
  rate : ℚ
  dtypeTag : String
  samples : List (Option ℚ)
deriving DecidableEq, Repr

/-- The four-string channel identity key. -/
def idKey (s : SampleSeries) : String × String × String × String :=
  (s.network, s.station, s.location, s.channel)

/-- Modelled from the spec (section 3 invariants): the end time,
`start + (npts-1)/rate` for a nonempty series and `start` for an empty
one. -/
def seriesEnd (s : SampleSeries) : ℚ :=
  if s.samples.length = 0 then s.startT
  else s.startT + ((s.samples.length - 1 : ℕ) : ℚ) / s.rate

/-- Modelled from the spec (section 4.1): round to the nearest integer
with the half-away-from-zero tie-break. -/
def roundHalfAway (x : ℚ) : ℤ :=
  if 0 ≤ x then ⌊x + 1/2⌋ else ⌈x - 1/2⌉

/-- Modelled from the spec (section 4.2 step 2): the sample offset between
the earlier series' start and the later one's, by the trim rounding
rule. -/
def offsetSamples (L R : SampleSeries) : ℕ :=
  (roundHalfAway ((R.startT - L.startT) * L.rate)).toNat

/-- The length of the overlapping index range between the earlier series
and the later one (zero-clipped). -/
def ovlLen (L R : SampleSeries) : ℕ :=
  min (L.samples.length - offsetSamples L R) R.samples.length

/-- Modelled from the spec (section 7): the merge error taxonomy. -/
inductive MergeErr where
  | incompatibleSeries
deriving DecidableEq, Repr

/-- Modelled from the spec (section 4.2 steps 2-5), for `L` starting no
later than `R`: classify as gap (masked filler between the parts),
contiguous (plain concatenation), or overlap/containment (element-wise
comparison of the shared index range; equal pairs resolve to the shared
data, any difference masks the entire overlap region). -/
def addOrdered (L R : SampleSeries) : SampleSeries :=
  if L.samples.length < offsetSamples L R then
    { L with samples := L.samples ++
        (List.replicate (offsetSamples L R - L.samples.length) none ++ R.samples) }
  else if offsetSamples L R = L.samples.length then
    { L with samples := L.samples ++ R.samples }
  else if (L.samples.drop (offsetSamples L R)).take (ovlLen L R) =
      R.samples.take (ovlLen L R) then
    { L with samples := L.samples.take (offsetSamples L R) ++
        (R.samples.take (ovlLen L R) ++
          (L.samples.drop (offsetSamples L R + R.samples.length) ++
            R.samples.drop (ovlLen L R))) }
  else
    { L with samples := L.samples.take (offsetSamples L R) ++
        (List.replicate (ovlLen L R) none ++
          (L.samples.drop (offsetSamples L R + R.samples.length) ++
            R.samples.drop (ovlLen L R))) }

/-- Modelled from the spec (section 4.2 contract): merging requires
identical channel key, sampling rate and dtype — any mismatch signals
IncompatibleSeries without coercing — then combines the two series in
ascending start-time order. -/
def addSeries (a b : SampleSeries) : Except MergeErr SampleSeries :=
  if idKey a ≠ idKey b ∨ a.rate ≠ b.rate ∨ a.dtypeTag ≠ b.dtypeTag then
    Except.error MergeErr.incompatibleSeries
  else if a.startT ≤ b.startT then Except.ok (addOrdered a b)
  else Except.ok (addOrdered b a)

/-- Modelled from the spec (section 4.1): the signed sample delta of
`leftTrim`, with nearest-sample rounding or truncation toward the
start. -/
def leftDelta (s : SampleSeries) (t : ℚ) (nearest : Bool) : ℤ :=
  if nearest then roundHalfAway ((t - s.startT) * s.rate)
  else ⌊(t - s.startT) * s.rate⌋

/-- Modelled from the spec (section 4.1): `leftTrim(t, nearest, pad)`.
Negative delta with `pad` prepends masked filler, without `pad` only moves
the start timestamp; a delta at or past `npts` empties the series with
start = end = the requested time and the dtype preserved; otherwise the
first `delta` samples are dropped. -/
def leftTrim (s : SampleSeries) (t : ℚ) (pad nearest : Bool) : SampleSeries :=
  if leftDelta s t nearest < 0 then
    if pad then
      { s with startT := s.startT + ((leftDelta s t nearest : ℤ) : ℚ) / s.rate,
               samples := List.replicate (-(leftDelta s t nearest)).toNat none ++ s.samples }
    else
      { s with startT := s.startT + ((leftDelta s t nearest : ℤ) : ℚ) / s.rate }
  else if (s.samples.length : ℤ) ≤ leftDelta s t nearest then
    { s with startT := t, samples := [] }
  else
    { s with startT := s.startT + ((leftDelta s t nearest : ℤ) : ℚ) / s.rate,
             samples := s.samples.drop (leftDelta s t nearest).toNat }

/-- Modelled from the spec (section 4.1): the signed sample delta of
`rightTrim`, anchored at the series end. -/
def rightDelta (s : SampleSeries) (t : ℚ) (nearest : Bool) : ℤ :=
  if nearest then roundHalfAway ((seriesEnd s - t) * s.rate)
  else ⌊(seriesEnd s - t) * s.rate⌋

/-- Modelled from the spec (section 4.1): `rightTrim(t, nearest, pad)`,
the mirror of `leftTrim` anchored at the end: masked filler is appended
when padding past the end; a delta at or past `npts` empties the series at
the requested time; otherwise the last `delta` samples are dropped. -/
def rightTrim (s : SampleSeries) (t : ℚ) (pad nearest : Bool) : SampleSeries :=
  if rightDelta s t nearest < 0 then
    if pad then
      { s with samples := s.samples ++ List.replicate (-(rightDelta s t nearest)).toNat none }
    else s
  else if (s.samples.length : ℤ) ≤ rightDelta s t nearest then
    { s with startT := t, samples := [] }
  else
    { s with samples := s.samples.take (s.samples.length - (rightDelta s t nearest).toNat) }

/-- Modelled from the spec (section 4.1): `trim(start, end)` is `leftTrim`
then `rightTrim`. -/
def trimSeries (s : SampleSeries) (t1 t2 : ℚ) (pad nearest : Bool) : SampleSeries :=
  rightTrim (leftTrim s t1 pad nearest) t2 pad nearest

end SeriesCore

namespace SeriesCore

/-- Extracting the middle segment of a concatenation by its offsets. -/
theorem seg_extract {A B C : List (Option ℚ)} {d k : ℕ}
    (hA : A.length = d) (hB : B.length = k) :
    ((A ++ (B ++ C)).drop d).take k = B := by
  subst hA
  subst hB
  rw [List.drop_left, List.take_left]

/-- C6: merging signals IncompatibleSeries exactly when the channel
identity, sampling rate or dtype differ — in either argument order — and
succeeds (no error) whenever all three match; a mismatched attribute is
never coerced. -/
theorem merge_incompatible_iff (a b : SampleSeries) :
    (addSeries a b = Except.error MergeErr.incompatibleSeries ↔
      (idKey a ≠ idKey b ∨ a.rate ≠ b.rate ∨ a.dtypeTag ≠ b.dtypeTag)) ∧
    (addSeries b a = Except.error MergeErr.incompatibleSeries ↔
      (idKey a ≠ idKey b ∨ a.rate ≠ b.rate ∨ a.dtypeTag ≠ b.dtypeTag)) := by
  constructor
  · unfold addSeries
    by_cases h : idKey a ≠ idKey b ∨ a.rate ≠ b.rate ∨ a.dtypeTag ≠ b.dtypeTag
    · rw [if_pos h]
      exact iff_of_true rfl h
    · rw [if_neg h]
      constructor
      · intro hcon
        by_cases hab : a.startT ≤ b.startT
        · rw [if_pos hab] at hcon
          exact absurd hcon (by simp)
        · rw [if_neg hab] at hcon
          exact absurd hcon (by simp)
      · intro hcon
        exact absurd hcon h
  · unfold addSeries
    by_cases h : idKey b ≠ idKey a ∨ b.rate ≠ a.rate ∨ b.dtypeTag ≠ a.dtypeTag
    · rw [if_pos h]
      refine iff_of_true rfl ?_
      rcases h with h | h | h
      · exact Or.inl (Ne.symm h)
      · exact Or.inr (Or.inl (Ne.symm h))
      · exact Or.inr (Or.inr (Ne.symm h))
    · rw [if_neg h]
      push_neg at h
      constructor
      · intro hcon
        by_cases hab : b.startT ≤ a.startT
        · rw [if_pos hab] at hcon
          exact absurd hcon (by simp)
        · rw [if_neg hab] at hcon
          exact absurd hcon (by simp)
      · intro hcon
        rcases hcon with hc | hc | hc
        · exact absurd h.1.symm hc
        · exact absurd h.2.1.symm hc
        · exact absurd h.2.2.symm hc

/-- C5: for compatible series ordered by start whose ranges overlap
(containment included), the merge returns a series in which the
overlapping index range equals the shared data — with no masking anywhere
when both inputs are plain — if every corresponding sample pair is equal,
and equals an all-masked block, never one source's values, if any pair
differs. -/
theorem merge_overlap_consensus_or_mask (L R : SampleSeries)
    (hid : idKey L = idKey R) (hrate : L.rate = R.rate) (hdt : L.dtypeTag = R.dtypeTag)
    (hord : L.startT ≤ R.startT)
    (hover : offsetSamples L R < L.samples.length) :
    addSeries L R = Except.ok (addOrdered L R) ∧
    ((L.samples.drop (offsetSamples L R)).take (ovlLen L R) =
        R.samples.take (ovlLen L R) →
      ((addOrdered L R).samples.drop (offsetSamples L R)).take (ovlLen L R) =
        (L.samples.drop (offsetSamples L R)).take (ovlLen L R) ∧
      ((∀ o ∈ L.samples, o ≠ none) → (∀ o ∈ R.samples, o ≠ none) →
        ∀ o ∈ (addOrdered L R).samples, o ≠ none)) ∧
    ((L.samples.drop (offsetSamples L R)).take (ovlLen L R) ≠
        R.samples.take (ovlLen L R) →
      ((addOrdered L R).samples.drop (offsetSamples L R)).take (ovlLen L R) =
        List.replicate (ovlLen L R) none) := by
  have hd1 : ¬ (L.samples.length < offsetSamples L R) := not_lt.mpr hover.le
  have hd2 : ¬ (offsetSamples L R = L.samples.length) := Nat.ne_of_lt hover
  have htakelen : (L.samples.take (offsetSamples L R)).length = offsetSamples L R := by
    rw [List.length_take]
    exact min_eq_left hover.le
  have hRovlen : (R.samples.take (ovlLen L R)).length = ovlLen L R := by
    rw [List.length_take]
    exact min_eq_left (min_le_right _ _)
  refine ⟨?_, ?_, ?_⟩
  · unfold addSeries
    rw [if_neg (by push_neg; exact ⟨hid, hrate, hdt⟩), if_pos hord]
  · intro heq
    constructor
    · unfold addOrdered
      rw [if_neg hd1, if_neg hd2, if_pos heq]
      dsimp only
      rw [seg_extract htakelen hRovlen]
      exact heq.symm
    · intro hL hR o ho
      unfold addOrdered at ho
      rw [if_neg hd1, if_neg hd2, if_pos heq] at ho
      dsimp only at ho
      rw [List.mem_append, List.mem_append, List.mem_append] at ho
      rcases ho with ho | (ho | (ho | ho))
      · exact hL o (List.take_subset _ _ ho)
      · exact hR o (List.take_subset _ _ ho)
      · exact hL o (List.drop_subset _ _ ho)
      · exact hR o (List.drop_subset _ _ ho)
  · intro hne
    unfold addOrdered
    rw [if_neg hd1, if_neg hd2, if_neg hne]
    dsimp only
    exact seg_extract htakelen (List.length_replicate _ _)

end SeriesCore

namespace SeriesCore

/-- Witness series: seven zero samples at rate 1 starting at time 0, the
first overlap scenario of `test_addOverlapsDefaultMethod`. -/
def zeros7 : SampleSeries :=
  ⟨"", "", "", "", 0, 1, "float64", List.replicate 7 (some 0)⟩

/-- Witness series: seven one samples starting five samples later. -/
def ones7at5 : SampleSeries :=
  ⟨"", "", "", "", 5, 1, "float64", List.replicate 7 (some 1)⟩

/-- Witness series: seven zero samples starting five samples later. -/
def zeros7at5 : SampleSeries :=
  ⟨"", "", "", "", 5, 1, "float64", List.replicate 7 (some 0)⟩

/-- The sample offset of a five-second lag at rate one is five. -/
theorem roundHalfAway_five : roundHalfAway ((5 - 0) * 1) = 5 := by
  unfold roundHalfAway
  rw [if_pos (by norm_num)]
  rw [show ((5:ℚ) - 0) * 1 + 1/2 = 11/2 by norm_num]
  rw [Int.floor_eq_iff]
  norm_num

/-- Witness for C5: zeros against ones five samples later disagree on the
two overlapping samples, so the merge masks the whole overlap region. -/
theorem merge_overlap_witness :
    idKey zeros7 = idKey ones7at5 ∧
    zeros7.startT ≤ ones7at5.startT ∧
    offsetSamples zeros7 ones7at5 < zeros7.samples.length ∧
    (zeros7.samples.drop (offsetSamples zeros7 ones7at5)).take (ovlLen zeros7 ones7at5) ≠
      ones7at5.samples.take (ovlLen zeros7 ones7at5) ∧
    addSeries zeros7 ones7at5 = Except.ok (addOrdered zeros7 ones7at5) ∧
    ((addOrdered zeros7 ones7at5).samples.drop (offsetSamples zeros7 ones7at5)).take
      (ovlLen zeros7 ones7at5) = List.replicate (ovlLen zeros7 ones7at5) none := by
  have hoff : offsetSamples zeros7 ones7at5 = 5 := by
    unfold offsetSamples zeros7 ones7at5
    dsimp only
    rw [roundHalfAway_five]
    rfl
  have hover : offsetSamples zeros7 ones7at5 < zeros7.samples.length := by
    rw [hoff]
    norm_num [zeros7]
  have hovl : ovlLen zeros7 ones7at5 = 2 := by
    unfold ovlLen
    rw [hoff]
    norm_num [zeros7, ones7at5]
  have hne : (zeros7.samples.drop (offsetSamples zeros7 ones7at5)).take
      (ovlLen zeros7 ones7at5) ≠ ones7at5.samples.take (ovlLen zeros7 ones7at5) := by
    rw [hoff, hovl]
    norm_num [zeros7, ones7at5]
  have hord : zeros7.startT ≤ ones7at5.startT := by norm_num [zeros7, ones7at5]
  refine ⟨rfl, hord, hover, hne, ?_, ?_⟩
  · exact (merge_overlap_consensus_or_mask zeros7 ones7at5 rfl rfl rfl hord hover).1
  · exact (merge_overlap_consensus_or_mask zeros7 ones7at5 rfl rfl rfl hord hover).2.2 hne

/-- Model validation against `test_addOverlapsDefaultMethod` case 1:
`0000000 + 1111111` (five samples later) gives `00000--11111` — the two
disagreeing overlap samples are masked, the rest kept. -/
theorem addOrdered_overlap_differing_validation :
    (addOrdered zeros7 ones7at5).samples =
      List.replicate 5 (some 0) ++
        (List.replicate 2 none ++ List.replicate 5 (some 1)) := by
  have hoff : offsetSamples zeros7 ones7at5 = 5 := by
    unfold offsetSamples zeros7 ones7at5
    dsimp only
    rw [roundHalfAway_five]
    rfl
  have hovl : ovlLen zeros7 ones7at5 = 2 := by
    unfold ovlLen
    rw [hoff]
    norm_num [zeros7, ones7at5]
  unfold addOrdered
  rw [hoff, hovl]
  norm_num [zeros7, ones7at5, List.take_replicate, List.drop_replicate]

/-- Model validation against `test_addOverlapsDefaultMethod` case 2:
`0000000 + 0000000` (five samples later) merges to twelve plain zeros. -/
theorem addOrdered_overlap_same_validation :
    (addOrdered zeros7 zeros7at5).samples = List.replicate 12 (some 0) := by
  have hoff : offsetSamples zeros7 zeros7at5 = 5 := by
    unfold offsetSamples zeros7 zeros7at5
    dsimp only
    rw [roundHalfAway_five]
    rfl
  have hovl : ovlLen zeros7 zeros7at5 = 2 := by
    unfold ovlLen
    rw [hoff]
    norm_num [zeros7, zeros7at5]
  unfold addOrdered
  rw [hoff, hovl]
  norm_num [zeros7, zeros7at5, List.take_replicate, List.drop_replicate]

/-- Rounding a zero time offset gives a zero sample delta. -/
theorem roundHalfAway_zero : roundHalfAway 0 = 0 := by
  unfold roundHalfAway
  rw [if_pos le_rfl]
  rw [show (0:ℚ) + 1/2 = 1/2 by norm_num]
  rw [Int.floor_eq_zero_iff]
  constructor <;> norm_num

/-- Left-trimming at the series' own start changes nothing. -/
theorem leftTrim_self (s : SampleSeries) : leftTrim s s.startT false true = s := by
  have hd : leftDelta s s.startT true = 0 := by
    unfold leftDelta
    rw [if_pos rfl, sub_self, zero_mul, roundHalfAway_zero]
  unfold leftTrim
  rw [hd, if_neg (lt_irrefl (0:ℤ))]
  obtain ⟨nw, stn, loc, ch, st0, rt, dt, smp⟩ := s
  dsimp only
  cases smp with
  | nil => rw [if_pos (by norm_num)]
  | cons a l =>
    rw [if_neg (by push_cast [List.length_cons]; omega)]
    simp only [Int.cast_zero, zero_div, add_zero, Int.toNat_zero, List.drop_zero]

/-- Right-trimming at the series' own end changes nothing. -/
theorem rightTrim_self (s : SampleSeries) : rightTrim s (seriesEnd s) false true = s := by
  have hd : rightDelta s (seriesEnd s) true = 0 := by
    unfold rightDelta
    rw [if_pos rfl, sub_self, zero_mul, roundHalfAway_zero]
  unfold rightTrim
  rw [hd, if_neg (lt_irrefl (0:ℤ))]
  obtain ⟨nw, stn, loc, ch, st0, rt, dt, smp⟩ := s
  dsimp only
  cases smp with
  | nil =>
    rw [if_pos (by norm_num)]
    simp [seriesEnd]
  | cons a l =>
    rw [if_neg (by push_cast [List.length_cons]; omega)]
    simp only [Int.toNat_zero, Nat.sub_zero, List.take_length]

/-- C9: trimming a valid series to its own bounds,
`trim(s.start, s.end)`, returns the series unchanged — same sample count,
sample values and bounds (the model is value-based, so the original is
never mutated). -/
theorem trim_own_bounds_noop (s : SampleSeries) (hrate : 0 < s.rate) :
    trimSeries s s.startT (seriesEnd s) false true = s := by
  unfold trimSeries
  rw [leftTrim_self s]
  exact rightTrim_self s

/-- Witness series for C9: three samples at 200 Hz. -/
def s9 : SampleSeries := ⟨"BW", "MANZ", "", "EHE", 0, 200, "int32", [some 1, some 2, some 3]⟩

/-- Witness for C9. -/
theorem trim_own_bounds_noop_witness :
    0 < s9.rate ∧ trimSeries s9 s9.startT (seriesEnd s9) false true = s9 :=
  ⟨by norm_num [s9], trim_own_bounds_noop s9 (by norm_num [s9])⟩

end SeriesCore
